import Mathlib

/-
Verification of the analytics core of durhamer/liquidity-watcher (src/app.py).

The embedding below translates the numeric pipeline of app.py into Lean:

* `getMacroData` models `get_macro_data` (lines 39-72): the eight FRED series
  are placed on the sorted union of their instants (as the `pd.DataFrame`
  constructor aligns differently-indexed series), each column is forward
  filled (`df.fillna(method='ffill')`, line 62), and every row that still has
  a missing column is dropped (`df.dropna()`, line 62).  Instants are `Nat`
  (calendar order), values are `ℚ` (exact stand-in for Python floats).
* `Net_Liquidity`, `Credit_Stress`, `Arb_Spread` model the derived-metric
  columns added on lines 65-67.
* `fit` / `fairValueSeries` / `deviationPctSeries` model the tab1 regression
  block (lines 144-159): `train_data = merged_df[merged_df.index >= train_start]`,
  the guard `if len(train_data) > 30`, `np.polyfit(x, y, 1)` (ordinary least
  squares on one variable), `np.corrcoef` squared, and the full-panel
  projection and percentage deviation.  The warning branch (line 193) is
  modelled as `Except.error`.  A float division by a zero fair value yields a
  non-finite sentinel (inf/NaN), which is not an ordinary number; it is
  modelled as `none`.
* `calculate_vpin` models the VPIN engine (lines 85-125).  `scipy.stats.norm.cdf`
  and the square root inside `pandas.Series.std()` are transcendental library
  routines with no closed rational form; they enter the embedding as explicit
  function parameters (`Phi`, `sqrtFn`), and every theorem about the engine is
  proved for all choices of these functions.  `calculate_vpinRun` adds the one
  aborting path of the engine: with a zero bucket volume pandas masks the
  floor division of line 107 to non-finite values and the `.astype(int)` cast
  raises a ValueError, modelled as `none`.
-/

/-! ## Series reconciliation (`get_macro_data`, lines 43-62) -/

/-- A raw input series: (instant, value) observations as delivered by the
data provider. -/
abbrev RawSeries := List (Nat × ℚ)

/-- The observation of a series at one instant, if any (the cell the
`pd.DataFrame` constructor places at that index label). -/
def obsAt (s : RawSeries) (t : Nat) : Option ℚ :=
  (s.find? (fun p => p.1 == t)).map Prod.snd

/-- One forward-fill step: a cell keeps its own observation when present,
otherwise it receives the carried last-seen value, otherwise it stays
missing. -/
def stepVal (s : RawSeries) (t : Nat) (carry : Option ℚ) : Option ℚ :=
  match obsAt s t with
  | some v => some v
  | none => carry

/-- Forward fill of one column along the instant axis
(`fillna(method='ffill')`, line 62). -/
def ffillCol (s : RawSeries) : Option ℚ → List Nat → List (Option ℚ)
  | _, [] => []
  | carry, t :: ts => stepVal s t carry :: ffillCol s (stepVal s t carry) ts

/-- Insert an instant into a sorted duplicate-free list of instants, keeping
it sorted and duplicate-free. -/
def insertOnce (t : Nat) : List Nat → List Nat
  | [] => [t]
  | u :: us => if t < u then t :: u :: us else if t = u then u :: us else u :: insertOnce t us

/-- The sorted duplicate-free list of all instants occurring in the input
(a DataFrame index is the sorted union of the series indexes). -/
def sortedUnion : List Nat → List Nat
  | [] => []
  | t :: ts => insertOnce t (sortedUnion ts)

/-- The candidate instant axis: the sorted union of the instants of all eight
input series. -/
def unionInstants (s1 s2 s3 s4 s5 s6 s7 s8 : RawSeries) : List Nat :=
  sortedUnion
    (s1.map Prod.fst ++ s2.map Prod.fst ++ s3.map Prod.fst ++ s4.map Prod.fst ++
      s5.map Prod.fst ++ s6.map Prod.fst ++ s7.map Prod.fst ++ s8.map Prod.fst)

/-- One dense row of the reconciled panel, one field per DataFrame column
(lines 56-60 of app.py). -/
structure MacroRow where
  instant : Nat
  Fed_Assets : ℚ
  TGA : ℚ
  RRP : ℚ
  Yield_Curve : ℚ
  CCC : ℚ
  BB : ℚ
  T3M : ℚ
  RRP_Rate : ℚ
deriving DecidableEq, Repr

/-- Row-wise drop of incomplete rows (`dropna()`, line 62): walk the axis and
the eight filled columns in lockstep and keep exactly the rows where every
column carries a value. -/
def denseRows :
    List Nat → List (Option ℚ) → List (Option ℚ) → List (Option ℚ) → List (Option ℚ) →
      List (Option ℚ) → List (Option ℚ) → List (Option ℚ) → List (Option ℚ) → List MacroRow
  | t :: ts, o1 :: r1, o2 :: r2, o3 :: r3, o4 :: r4, o5 :: r5, o6 :: r6, o7 :: r7, o8 :: r8 =>
    (match o1, o2, o3, o4, o5, o6, o7, o8 with
     | some v1, some v2, some v3, some v4, some v5, some v6, some v7, some v8 =>
       { instant := t, Fed_Assets := v1, TGA := v2, RRP := v3, Yield_Curve := v4,
         CCC := v5, BB := v6, T3M := v7, RRP_Rate := v8 } ::
         denseRows ts r1 r2 r3 r4 r5 r6 r7 r8
     | _, _, _, _, _, _, _, _ => denseRows ts r1 r2 r3 r4 r5 r6 r7 r8)
  | _, _, _, _, _, _, _, _, _ => []

/-- The reconciliation pipeline of `get_macro_data` (lines 56-62): align the
eight series on the union of their instants, forward fill each column, drop
every row with a remaining gap.  The function is total: no error is signalled
whatever the inputs (the `except` on line 70 concerns the network fetch, not
reconciliation). -/
def getMacroData (s1 s2 s3 s4 s5 s6 s7 s8 : RawSeries) : List MacroRow :=
  let axis := unionInstants s1 s2 s3 s4 s5 s6 s7 s8
  denseRows axis
    (ffillCol s1 none axis) (ffillCol s2 none axis) (ffillCol s3 none axis)
    (ffillCol s4 none axis) (ffillCol s5 none axis) (ffillCol s6 none axis)
    (ffillCol s7 none axis) (ffillCol s8 none axis)

/-! ## Derived metrics (lines 65-67) -/

/-- Line 65: `df['Net_Liquidity'] = (df['Fed_Assets'] - df['TGA'] - df['RRP']) / 1000000`.
The combined difference is divided by the single constant 1000000; no
per-column divisor is applied. -/
def Net_Liquidity (r : MacroRow) : ℚ := (r.Fed_Assets - r.TGA - r.RRP) / 1000000

/-- Line 66: `df['Credit_Stress'] = df['CCC'] - df['BB']`. -/
def Credit_Stress (r : MacroRow) : ℚ := r.CCC - r.BB

/-- Line 67: `df['Arb_Spread'] = df['T3M'] - df['RRP_Rate']`. -/
def Arb_Spread (r : MacroRow) : ℚ := r.T3M - r.RRP_Rate

/-! ## Fair-value regression (tab1, lines 144-159) -/

/-- One row of `merged_df`: the columns the regression block reads. -/
structure MergedRow where
  instant : Nat
  Net_Liquidity : ℚ
  Stock_Price : ℚ
deriving DecidableEq, Repr

/-- Line 145: `train_data = merged_df[merged_df.index >= train_start]`. -/
def trainData (panel : List MergedRow) (trainStart : Nat) : List MergedRow :=
  panel.filter (fun r => trainStart ≤ r.instant)

/-- Arithmetic mean of a list of rationals. -/
def listMean (xs : List ℚ) : ℚ := xs.sum / (xs.length : ℚ)

/-- The slope of `np.polyfit(x, y, 1)` (line 150): the ordinary-least-squares
slope, centered covariance over centered variance. -/
def polyfitSlope (xs ys : List ℚ) : ℚ :=
  (((xs.zip ys).map (fun p => (p.1 - listMean xs) * (p.2 - listMean ys))).sum) /
    ((xs.map (fun x => (x - listMean xs) ^ 2)).sum)

/-- The intercept of `np.polyfit(x, y, 1)` (line 150). -/
def polyfitIntercept (xs ys : List ℚ) : ℚ :=
  listMean ys - polyfitSlope xs ys * listMean xs

/-- Lines 153-155: the squared Pearson correlation of `np.corrcoef`,
`r_squared = correlation_xy ** 2`; squaring removes the square root, so the
value is exactly rational. -/
def corrSquared (xs ys : List ℚ) : ℚ :=
  ((((xs.zip ys).map (fun p => (p.1 - listMean xs) * (p.2 - listMean ys))).sum) ^ 2) /
    (((xs.map (fun x => (x - listMean xs) ^ 2)).sum) *
      ((ys.map (fun y => (y - listMean ys) ^ 2)).sum))

/-- The refusal branch of the fit (lines 192-193, `st.warning`). -/
inductive FitError
  | insufficientTrainingData
deriving DecidableEq, Repr

/-- The frozen result of a successful fit (slope, intercept, R², lines 150-155). -/
structure FairValueModel where
  slope : ℚ
  intercept : ℚ
  r_squared : ℚ
deriving DecidableEq, Repr

/-- Lines 144-155: restrict to rows at or after the training start, refuse the
fit unless `len(train_data) > 30`, otherwise return the least-squares line and
its R² over the training rows. -/
def fit (panel : List MergedRow) (trainStart : Nat) : Except FitError FairValueModel :=
  let td := trainData panel trainStart
  let x := td.map MergedRow.Net_Liquidity
  let y := td.map MergedRow.Stock_Price
  if 30 < td.length then
    .ok { slope := polyfitSlope x y, intercept := polyfitIntercept x y,
          r_squared := corrSquared x y }
  else
    .error .insufficientTrainingData

/-- Line 157: `merged_df['Fair_Value'] = merged_df['Net_Liquidity'] * slope + intercept`,
applied to every row of the full panel. -/
def fairValueSeries (m : FairValueModel) (panel : List MergedRow) : List ℚ :=
  panel.map (fun r => r.Net_Liquidity * m.slope + m.intercept)

/-- Lines 158-159: `Deviation = Stock_Price - Fair_Value` and
`Deviation_Pct = Deviation / Fair_Value * 100`.  When the fair value is zero
the float division produces a non-finite sentinel (inf or NaN), never an
ordinary number and in particular never zero; that outcome is modelled as
`none`. -/
def deviationPctSeries (m : FairValueModel) (panel : List MergedRow) : List (Option ℚ) :=
  panel.map (fun r =>
    let fv := r.Net_Liquidity * m.slope + m.intercept
    if fv = 0 then none else some ((r.Stock_Price - fv) / fv * 100))

instance {ε α : Type} [DecidableEq ε] [DecidableEq α] : DecidableEq (Except ε α)
  | .ok a, .ok b => decidable_of_iff (a = b) (by simp)
  | .ok _, .error _ => .isFalse (by simp)
  | .error _, .ok _ => .isFalse (by simp)
  | .error a, .error b => decidable_of_iff (a = b) (by simp)

/-! ## Order-flow toxicity engine (`calculate_vpin`, lines 85-125) -/

/-- One intraday OHLCV bar as consumed by `calculate_vpin` (its `Datetime`,
`Close` and `Volume` columns). -/
structure Bar where
  Datetime : Nat
  Close : ℚ
  Volume : ℚ
deriving DecidableEq, Repr

/-- Line 91: `df['dP'] = df['Close'].diff()` at position `i` — undefined (NaN)
for the first bar, otherwise the close-to-close change. -/
def dPAt (bars : List Bar) (i : Nat) : Option ℚ :=
  if i = 0 then none
  else
    match bars[i]?, bars[i - 1]? with
    | some b, some p => some (b.Close - p.Close)
    | _, _ => none

/-- The whole `dP` column. -/
def dPList (bars : List Bar) : List (Option ℚ) :=
  (List.range bars.length).map (dPAt bars)

/-- `pandas.Series.std()` (line 95): the sample standard deviation (ddof = 1)
over the defined entries, the square root being taken by the caller-supplied
`sqrtFn` (a transcendental library routine).  pandas returns NaN for fewer
than two defined entries; NaN has no rational representative, and there the
division below degenerates to 0 instead — no claim concerns those sizes. -/
def sampleStd (sqrtFn : ℚ → ℚ) (xs : List ℚ) : ℚ :=
  sqrtFn ((xs.map (fun x => (x - listMean xs) ^ 2)).sum / ((xs.length : ℚ) - 1))

/-- Lines 95-97: `sigma = df['dP'].std()` followed by
`if sigma == 0: sigma = 0.0001`. -/
def vpinSigma (sqrtFn : ℚ → ℚ) (bars : List Bar) : ℚ :=
  let s := sampleStd sqrtFn ((dPList bars).filterMap id)
  if s = 0 then 1 / 10000 else s

/-- Line 99: `prob_buy = norm.cdf(df['dP'] / sigma)`, with `Phi` standing for
`scipy.stats.norm.cdf`; NaN in, NaN out on the first bar. -/
def probBuyAt (Phi sqrtFn : ℚ → ℚ) (bars : List Bar) (i : Nat) : Option ℚ :=
  (dPAt bars i).map (fun d => Phi (d / vpinSigma sqrtFn bars))

/-- Line 101: `df['Buy_Vol'] = df['Volume'] * prob_buy`. -/
def buyVolAt (Phi sqrtFn : ℚ → ℚ) (bars : List Bar) (i : Nat) : Option ℚ :=
  match bars[i]?, probBuyAt Phi sqrtFn bars i with
  | some b, some pr => some (b.Volume * pr)
  | _, _ => none

/-- Line 102: `df['Sell_Vol'] = df['Volume'] * (1 - prob_buy)`. -/
def sellVolAt (Phi sqrtFn : ℚ → ℚ) (bars : List Bar) (i : Nat) : Option ℚ :=
  match bars[i]?, probBuyAt Phi sqrtFn bars i with
  | some b, some pr => some (b.Volume * (1 - pr))
  | _, _ => none

/-- Line 105: `df['Cum_Vol'] = df['Volume'].cumsum()`, with the running total
threaded as `acc`. -/
def cumVolAux (acc : ℚ) : List Bar → List ℚ
  | [] => []
  | b :: bs => (acc + b.Volume) :: cumVolAux (acc + b.Volume) bs

/-- The cumulative-volume column. -/
def cumVolList (bars : List Bar) : List ℚ := cumVolAux 0 bars

/-- The floor-divided bucket ids of line 107 for a nonzero divisor:
`df['Cum_Vol'] // bucket_volume` is pandas floor division (it floors, also for
negative divisors). -/
def bucketIdList (bars : List Bar) (bucket_volume : ℚ) : List Int :=
  (cumVolList bars).map (fun c => ⌊c / bucket_volume⌋)

/-- Line 107 in full: `df['Bucket_ID'] = (df['Cum_Vol'] // bucket_volume).astype(int)`.
No validation of `bucket_volume` is performed anywhere in `calculate_vpin`,
but with `bucket_volume = 0` pandas masks the floor division: every entry of a
nonempty `Cum_Vol` becomes ±inf (or NaN), and the following `.astype(int)`
raises a ValueError on non-finite values.  The raised exception is modelled as
`none`; on an empty column the cast succeeds vacuously, and with a nonzero
divisor (negative ones included) it yields the floor-divided ids. -/
def bucketIdCast (bars : List Bar) (bucket_volume : ℚ) : Option (List Int) :=
  if bucket_volume = 0 ∧ bars ≠ [] then none
  else some (bucketIdList bars bucket_volume)

/-- Insert a bucket id into a sorted duplicate-free list of ids. -/
def insertIdOnce (t : Int) : List Int → List Int
  | [] => [t]
  | u :: us => if t < u then t :: u :: us else if t = u then u :: us else u :: insertIdOnce t us

/-- The sorted duplicate-free group keys of `df.groupby('Bucket_ID')`
(line 110); pandas sorts group keys ascending. -/
def sortedIds : List Int → List Int
  | [] => []
  | t :: ts => insertIdOnce t (sortedIds ts)

/-- The group keys of the bucket aggregation. -/
def bucketKeys (bars : List Bar) (bucket_volume : ℚ) : List Int :=
  sortedIds (bucketIdList bars bucket_volume)

/-- One aggregated volume bucket (lines 110-115). -/
structure Bucket where
  Buy_Vol : ℚ
  Sell_Vol : ℚ
  Close : ℚ
  Datetime : Nat
deriving DecidableEq, Repr

/-- Lines 110-115: aggregation of one group — `Buy_Vol: 'sum'`,
`Sell_Vol: 'sum'` (a pandas sum skips NaN entries, hence `getD 0` for the
unclassified first bar), `Close: 'last'`, `Datetime: 'last'`. -/
def aggBucket (Phi sqrtFn : ℚ → ℚ) (bars : List Bar) (bucket_volume : ℚ) (k : Int) : Bucket :=
  let idxs := (List.range bars.length).filter
    (fun i => decide ((bucketIdList bars bucket_volume)[i]? = some k))
  { Buy_Vol := (idxs.map (fun i => (buyVolAt Phi sqrtFn bars i).getD 0)).sum
    Sell_Vol := (idxs.map (fun i => (sellVolAt Phi sqrtFn bars i).getD 0)).sum
    Close := ((idxs.map (fun i => ((bars[i]?).map Bar.Close).getD 0)).getLast?).getD 0
    Datetime := ((idxs.map (fun i => ((bars[i]?).map Bar.Datetime).getD 0)).getLast?).getD 0 }

/-- The ordered bucket series of lines 110-115. -/
def bucketList (Phi sqrtFn : ℚ → ℚ) (bars : List Bar) (bucket_volume : ℚ) : List Bucket :=
  (bucketKeys bars bucket_volume).map (aggBucket Phi sqrtFn bars bucket_volume)

/-- Line 123: `buckets['OI'].rolling(window=window).sum() / (bucket_volume * window)`.
A rolling sum with an integer window has `min_periods = window`, so the first
`window - 1` positions are NaN (modelled `none`); from position `window - 1`
on it is the sum of the trailing `window` entries. -/
def rollingVpin (ois : List ℚ) (bucket_volume : ℚ) (window : Nat) : List (Option ℚ) :=
  (List.range ois.length).map (fun j =>
    if window ≤ j + 1 then
      some (((ois.drop (j + 1 - window)).take window).sum / (bucket_volume * (window : ℚ)))
    else none)

/-- A bucket together with its order imbalance (line 118) and VPIN score
(line 123). -/
structure ScoredBucket where
  Buy_Vol : ℚ
  Sell_Vol : ℚ
  Close : ℚ
  Datetime : Nat
  OI : ℚ
  VPIN : Option ℚ
deriving DecidableEq, Repr

/-- The computation of `calculate_vpin(df, bucket_volume, window=50)`
(lines 85-125) past the bucket-id cast: classify the bars, bucket them on the
volume clock, attach the order imbalance `OI = |Buy_Vol - Sell_Vol|` and the
rolling VPIN score to every bucket.  `calculate_vpinRun` below adds the one
way line 107 can abort. -/
def calculate_vpin (Phi sqrtFn : ℚ → ℚ) (bars : List Bar) (bucket_volume : ℚ)
    (window : Nat) : List ScoredBucket :=
  let buckets := bucketList Phi sqrtFn bars bucket_volume
  let ois := buckets.map (fun b => |b.Buy_Vol - b.Sell_Vol|)
  let vp := rollingVpin ois bucket_volume window
  (List.range buckets.length).map (fun j =>
    { Buy_Vol := ((buckets[j]?).map Bucket.Buy_Vol).getD 0
      Sell_Vol := ((buckets[j]?).map Bucket.Sell_Vol).getD 0
      Close := ((buckets[j]?).map Bucket.Close).getD 0
      Datetime := ((buckets[j]?).map Bucket.Datetime).getD 0
      OI := (ois[j]?).getD 0
      VPIN := ((vp[j]?).getD none) })

/-- Running `calculate_vpin` end to end: the bucket-id cast of line 107 raises
on a zero bucket volume over a nonempty input, in which case the exception
escapes the function and no bucket series is produced (`none`); otherwise the
computation proceeds and returns the scored bucket series. -/
def calculate_vpinRun (Phi sqrtFn : ℚ → ℚ) (bars : List Bar) (bucket_volume : ℚ)
    (window : Nat) : Option (List ScoredBucket) :=
  match bucketIdCast bars bucket_volume with
  | none => none
  | some _ => some (calculate_vpin Phi sqrtFn bars bucket_volume window)

/-- The forward-fill carry invariant: any carried value originates from an
observation made no later than every remaining axis instant. -/
def carryOK (s : RawSeries) (carry : Option ℚ) (axis : List Nat) : Prop :=
  ∀ v, carry = some v → ∃ p ∈ s, ∀ t ∈ axis, p.1 ≤ t

/-- A 32-row panel whose row at instant 0 lies strictly before the training
start 1; rows 1..31 lie on the exact line y = 2 x + 1. -/
def demoPanel : List MergedRow :=
  [⟨0, 0, 1⟩,
   ⟨1, 1, 3⟩,
   ⟨2, 2, 5⟩,
   ⟨3, 3, 7⟩,
   ⟨4, 4, 9⟩,
   ⟨5, 5, 11⟩,
   ⟨6, 6, 13⟩,
   ⟨7, 7, 15⟩,
   ⟨8, 8, 17⟩,
   ⟨9, 9, 19⟩,
   ⟨10, 10, 21⟩,
   ⟨11, 11, 23⟩,
   ⟨12, 12, 25⟩,
   ⟨13, 13, 27⟩,
   ⟨14, 14, 29⟩,
   ⟨15, 15, 31⟩,
   ⟨16, 16, 33⟩,
   ⟨17, 17, 35⟩,
   ⟨18, 18, 37⟩,
   ⟨19, 19, 39⟩,
   ⟨20, 20, 41⟩,
   ⟨21, 21, 43⟩,
   ⟨22, 22, 45⟩,
   ⟨23, 23, 47⟩,
   ⟨24, 24, 49⟩,
   ⟨25, 25, 51⟩,
   ⟨26, 26, 53⟩,
   ⟨27, 27, 55⟩,
   ⟨28, 28, 57⟩,
   ⟨29, 29, 59⟩,
   ⟨30, 30, 61⟩,
   ⟨31, 31, 63⟩]

/-! ## Helper lemmas -/

/-- Indexing a mapped range. -/
theorem getElem?_range_map {α : Type} (f : Nat → α) (n i : Nat) (h : i < n) :
    ((List.range n).map f)[i]? = some (f i) := by
  simp [List.getElem?_map, List.getElem?_range, h]

/-! ## C1, C2, C4, C7 -/

/-- C1: the claim says net liquidity normalizes each column by its own declared
divisor (1,000,000 / 1,000,000 / 1,000) so the sample inputs give 4.85; the
code divides the combined difference by the single constant 1,000,000, so the
sample inputs give 4.89995, not 4.85. -/
theorem net_liquidity_claim_cex :
    ¬ Net_Liquidity ⟨0, 5000000, 100000, 50, 0, 0, 0, 0, 0⟩ = 97 / 20 := by
  norm_num [Net_Liquidity]

/-- C1 (amended): the net-liquidity metric divides the combined difference
(asset base minus drawdown account minus overnight facility) by the single
shared divisor 1,000,000; at asset_base = 5,000,000, drawdown = 100,000,
overnight = 50 it equals 4.89995. -/
theorem net_liquidity_single_divisor (r : MacroRow) :
    Net_Liquidity r = (r.Fed_Assets - r.TGA - r.RRP) / 1000000 ∧
    Net_Liquidity ⟨0, 5000000, 100000, 50, 0, 0, 0, 0, 0⟩ = 489995 / 100000 := by
  constructor
  · rfl
  · norm_num [Net_Liquidity]

/-- C2: whenever the training window (rows with instant at or after the
training start) has fewer than 30 rows, the fit is refused with the
insufficient-training-data error and no model is returned. -/
theorem fit_refuses_small_training_window (panel : List MergedRow) (trainStart : Nat)
    (h : (trainData panel trainStart).length < 30) :
    fit panel trainStart = .error .insufficientTrainingData := by
  simp only [fit]
  rw [if_neg (by omega)]

/-- C2 witness: a training window of exactly 10 rows is refused. -/
theorem fit_refuses_small_training_window_witness :
    (trainData [⟨1, 1, 1⟩, ⟨2, 2, 2⟩, ⟨3, 3, 3⟩, ⟨4, 4, 4⟩, ⟨5, 5, 5⟩, ⟨6, 6, 6⟩,
        ⟨7, 7, 7⟩, ⟨8, 8, 8⟩, ⟨9, 9, 9⟩, ⟨10, 10, 10⟩] 0).length = 10 ∧
    fit [⟨1, 1, 1⟩, ⟨2, 2, 2⟩, ⟨3, 3, 3⟩, ⟨4, 4, 4⟩, ⟨5, 5, 5⟩, ⟨6, 6, 6⟩,
        ⟨7, 7, 7⟩, ⟨8, 8, 8⟩, ⟨9, 9, 9⟩, ⟨10, 10, 10⟩] 0 =
      .error .insufficientTrainingData :=
  ⟨by decide,
   fit_refuses_small_training_window
     [⟨1, 1, 1⟩, ⟨2, 2, 2⟩, ⟨3, 3, 3⟩, ⟨4, 4, 4⟩, ⟨5, 5, 5⟩, ⟨6, 6, 6⟩,
      ⟨7, 7, 7⟩, ⟨8, 8, 8⟩, ⟨9, 9, 9⟩, ⟨10, 10, 10⟩] 0 (by decide)⟩

/-- C4: for every fitted model the projected fair value exists at every
position of the full panel (the output series has the panel's length) and
equals slope * independent + intercept there; the projected value does not
depend on the training-window start. -/
theorem projection_covers_full_panel (panel : List MergedRow) (trainStart : Nat)
    (m : FairValueModel) (i : Nat) (r : MergedRow)
    (hfit : fit panel trainStart = .ok m) (hr : panel[i]? = some r) :
    (fairValueSeries m panel).length = panel.length ∧
    (fairValueSeries m panel)[i]? = some (m.slope * r.Net_Liquidity + m.intercept) := by
  constructor
  · simp [fairValueSeries]
  · simp [fairValueSeries, List.getElem?_map, hr, mul_comm]

/-- C4 witness: a model fit on the 31 rows from instant 1 onward projects onto
the instant-0 row (outside the training window) without error. -/
theorem projection_covers_full_panel_witness :
    (fairValueSeries ⟨2, 1, 1⟩ demoPanel).length = demoPanel.length ∧
    (fairValueSeries ⟨2, 1, 1⟩ demoPanel)[0]? = some (2 * (0 : ℚ) + 1) :=
  projection_covers_full_panel demoPanel 1 ⟨2, 1, 1⟩ 0 ⟨0, 0, 1⟩
    (by norm_num [fit, demoPanel, trainData, List.filter, polyfitSlope, polyfitIntercept,
      corrSquared, listMean]) (by decide)

/-- C7: the percentage deviation at every position equals
(dependent - fairValue) / fairValue * 100 whenever the fair value is nonzero;
when the fair value is zero the entry is the explicit undefined marker, and an
ordinary numeric entry can only arise from a nonzero fair value (so a zero
fair value is never silently reported as the number 0). -/
theorem deviation_pct_zero_fair_value (m : FairValueModel) (panel : List MergedRow)
    (i : Nat) (r : MergedRow) (hr : panel[i]? = some r) :
    (r.Net_Liquidity * m.slope + m.intercept = 0 →
      (deviationPctSeries m panel)[i]? = some none) ∧
    (r.Net_Liquidity * m.slope + m.intercept ≠ 0 →
      (deviationPctSeries m panel)[i]? =
        some (some ((r.Stock_Price - (r.Net_Liquidity * m.slope + m.intercept)) /
          (r.Net_Liquidity * m.slope + m.intercept) * 100))) ∧
    (∀ q : ℚ, (deviationPctSeries m panel)[i]? = some (some q) →
      r.Net_Liquidity * m.slope + m.intercept ≠ 0) := by
  refine ⟨fun h0 => ?_, fun hne => ?_, fun q hq => ?_⟩
  · simp [deviationPctSeries, List.getElem?_map, hr, h0]
  · simp [deviationPctSeries, List.getElem?_map, hr, hne]
  · intro h0
    simp [deviationPctSeries, List.getElem?_map, hr, h0] at hq

/-- C7 witness: with slope 1 and intercept 0, the instant-0 row has fair value
0 and an undefined marker, and the instant-1 row has fair value 2 and
deviation (5 - 2) / 2 * 100. -/
theorem deviation_pct_zero_fair_value_witness :
    (deviationPctSeries ⟨1, 0, 1⟩ [⟨0, 0, 5⟩, ⟨1, 2, 5⟩])[0]? = some none ∧
    (deviationPctSeries ⟨1, 0, 1⟩ [⟨0, 0, 5⟩, ⟨1, 2, 5⟩])[1]? =
      some (some ((5 - ((2 : ℚ) * 1 + 0)) / ((2 : ℚ) * 1 + 0) * 100)) :=
  ⟨(deviation_pct_zero_fair_value ⟨1, 0, 1⟩ [⟨0, 0, 5⟩, ⟨1, 2, 5⟩] 0 ⟨0, 0, 5⟩
      (by decide)).1 (by norm_num),
   (deviation_pct_zero_fair_value ⟨1, 0, 1⟩ [⟨0, 0, 5⟩, ⟨1, 2, 5⟩] 1 ⟨1, 2, 5⟩
      (by decide)).2.1 (by norm_num)⟩

/-! ## C5, C10, C6, C9 -/

/-- The price change at a position after the first is the close-to-close
difference. -/
theorem dPAt_pos (bars : List Bar) (i : Nat) (b p : Bar) (h1 : 1 ≤ i)
    (hb : bars[i]? = some b) (hp : bars[i - 1]? = some p) :
    dPAt bars i = some (b.Close - p.Close) := by
  unfold dPAt
  rw [if_neg (by omega), hb, hp]

/-- C5: for every bar after the first, the buy probability is Phi of the price
change divided by sigma, with buy volume = volume * Phi(dP / sigma) and sell
volume = volume * (1 - Phi(dP / sigma)); sigma is the (sample) standard
deviation of dP over the whole input, replaced by the epsilon 0.0001 exactly
when it is zero. -/
theorem bvc_classification_formula (Phi sqrtFn : ℚ → ℚ) (bars : List Bar) (i : Nat)
    (b p : Bar) (h1 : 1 ≤ i) (hb : bars[i]? = some b) (hp : bars[i - 1]? = some p) :
    buyVolAt Phi sqrtFn bars i =
      some (b.Volume * Phi ((b.Close - p.Close) / vpinSigma sqrtFn bars)) ∧
    sellVolAt Phi sqrtFn bars i =
      some (b.Volume * (1 - Phi ((b.Close - p.Close) / vpinSigma sqrtFn bars))) ∧
    (sampleStd sqrtFn ((dPList bars).filterMap id) = 0 →
      vpinSigma sqrtFn bars = 1 / 10000) ∧
    (sampleStd sqrtFn ((dPList bars).filterMap id) ≠ 0 →
      vpinSigma sqrtFn bars = sampleStd sqrtFn ((dPList bars).filterMap id)) := by
  have hdP := dPAt_pos bars i b p h1 hb hp
  refine ⟨?_, ?_, fun h0 => ?_, fun hne => ?_⟩
  · unfold buyVolAt probBuyAt
    rw [hdP, hb]
    rfl
  · unfold sellVolAt probBuyAt
    rw [hdP, hb]
    rfl
  · simp only [vpinSigma]
    rw [if_pos h0]
  · simp only [vpinSigma]
    rw [if_neg hne]

/-- C5 witness: two bars with closes 10 and 11 and volumes 5 and 7; with the
sample cdf mapping everything to 1/2 and the sample square root mapping
everything to 1, the second bar classifies as 7 * (1/2) buy and
7 * (1 - 1/2) sell. -/
theorem bvc_classification_formula_witness :
    buyVolAt (fun _ => 1 / 2) (fun _ => 1) [⟨0, 10, 5⟩, ⟨1, 11, 7⟩] 1 = some (7 / 2) ∧
    sellVolAt (fun _ => 1 / 2) (fun _ => 1) [⟨0, 10, 5⟩, ⟨1, 11, 7⟩] 1 = some (7 / 2) := by
  have h := bvc_classification_formula (fun _ => 1 / 2) (fun _ => 1)
    [⟨0, 10, 5⟩, ⟨1, 11, 7⟩] 1 ⟨1, 11, 7⟩ ⟨0, 10, 5⟩ (by decide) (by decide) (by decide)
  refine ⟨?_, ?_⟩
  · rw [h.1]; norm_num
  · rw [h.2.1]; norm_num

/-- C10: classification conserves volume — for every bar after the first, the
classified buy volume and sell volume are both defined and add up exactly to
the bar's total volume. -/
theorem classification_conserves_volume (Phi sqrtFn : ℚ → ℚ) (bars : List Bar)
    (i : Nat) (b p : Bar) (h1 : 1 ≤ i) (hb : bars[i]? = some b)
    (hp : bars[i - 1]? = some p) :
    ∃ bv sv, buyVolAt Phi sqrtFn bars i = some bv ∧
      sellVolAt Phi sqrtFn bars i = some sv ∧ bv + sv = b.Volume := by
  have hdP := dPAt_pos bars i b p h1 hb hp
  refine ⟨b.Volume * Phi ((b.Close - p.Close) / vpinSigma sqrtFn bars),
    b.Volume * (1 - Phi ((b.Close - p.Close) / vpinSigma sqrtFn bars)), ?_, ?_, ?_⟩
  · unfold buyVolAt probBuyAt
    rw [hdP, hb]
    rfl
  · unfold sellVolAt probBuyAt
    rw [hdP, hb]
    rfl
  · ring

/-- C10 witness: the second bar's buy and sell volumes add up to its total
volume 7. -/
theorem classification_conserves_volume_witness :
    ∃ bv sv, buyVolAt (fun _ => 1 / 3) (fun _ => 1) [⟨0, 10, 5⟩, ⟨1, 11, 7⟩] 1 = some bv ∧
      sellVolAt (fun _ => 1 / 3) (fun _ => 1) [⟨0, 10, 5⟩, ⟨1, 11, 7⟩] 1 = some sv ∧
      bv + sv = (7 : ℚ) :=
  classification_conserves_volume (fun _ => 1 / 3) (fun _ => 1)
    [⟨0, 10, 5⟩, ⟨1, 11, 7⟩] 1 ⟨1, 11, 7⟩ ⟨0, 10, 5⟩ (by decide) (by decide) (by decide)

/-- C6: in every scored bucket sequence, a bucket at position j with at least
`window` buckets of history (itself included, i.e. window ≤ j + 1) scores the
sum of the order imbalances of the trailing `window` buckets divided by
(bucket_volume * window), and every earlier bucket (j + 1 < window) carries
the undefined marker — not zero and not a partial average. -/
theorem vpin_trailing_window (Phi sqrtFn : ℚ → ℚ) (bars : List Bar) (bucket_volume : ℚ)
    (window j : Nat) (sb : ScoredBucket) (hw : 1 ≤ window)
    (hj : (calculate_vpin Phi sqrtFn bars bucket_volume window)[j]? = some sb) :
    (j + 1 < window → sb.VPIN = none) ∧
    (window ≤ j + 1 →
      sb.VPIN = some (((((bucketList Phi sqrtFn bars bucket_volume).map
          (fun b => |b.Buy_Vol - b.Sell_Vol|)).drop (j + 1 - window)).take window).sum /
        (bucket_volume * (window : ℚ)))) := by
  simp only [calculate_vpin] at hj
  by_cases hlt : j < (bucketList Phi sqrtFn bars bucket_volume).length
  · rw [getElem?_range_map _ _ _ hlt] at hj
    have hsb := Option.some.inj hj
    have hvp :
        (rollingVpin ((bucketList Phi sqrtFn bars bucket_volume).map
            (fun b => |b.Buy_Vol - b.Sell_Vol|)) bucket_volume window)[j]? =
          some (if window ≤ j + 1 then
            some (((((bucketList Phi sqrtFn bars bucket_volume).map
                (fun b => |b.Buy_Vol - b.Sell_Vol|)).drop (j + 1 - window)).take window).sum /
              (bucket_volume * (window : ℚ)))
          else none) := by
      unfold rollingVpin
      exact getElem?_range_map _ _ _ (by simpa using hlt)
    rw [← hsb]
    constructor
    · intro hsmall
      show ((rollingVpin ((bucketList Phi sqrtFn bars bucket_volume).map
          (fun b => |b.Buy_Vol - b.Sell_Vol|)) bucket_volume window)[j]?).getD none = none
      rw [hvp, if_neg (by omega)]
      rfl
    · intro hbig
      show ((rollingVpin ((bucketList Phi sqrtFn bars bucket_volume).map
          (fun b => |b.Buy_Vol - b.Sell_Vol|)) bucket_volume window)[j]?).getD none = _
      rw [hvp, if_pos hbig]
      rfl
  · rw [List.getElem?_eq_none (by simpa using Nat.le_of_not_lt hlt)] at hj
    cases hj

set_option maxHeartbeats 1600000 in
/-- C6 witness: with bucket volume 5 the two bars land in two buckets; with
window 2 the first bucket's score is the undefined marker and the second
bucket's score is the trailing-window quotient. -/
theorem vpin_trailing_window_witness :
    ((0 + 1 < 2 → (⟨0, 0, 10, 0, 0, none⟩ : ScoredBucket).VPIN = none) ∧
     (2 ≤ 0 + 1 → (⟨0, 0, 10, 0, 0, none⟩ : ScoredBucket).VPIN =
       some (((((bucketList (fun _ => 1 / 2) (fun _ => 1) [⟨0, 10, 5⟩, ⟨1, 11, 7⟩] 5).map
           (fun b => |b.Buy_Vol - b.Sell_Vol|)).drop (0 + 1 - 2)).take 2).sum /
         (5 * ((2 : Nat) : ℚ))))) ∧
    ((1 + 1 < 2 → (⟨7 / 2, 7 / 2, 11, 1, 0, some 0⟩ : ScoredBucket).VPIN = none) ∧
     (2 ≤ 1 + 1 → (⟨7 / 2, 7 / 2, 11, 1, 0, some 0⟩ : ScoredBucket).VPIN =
       some (((((bucketList (fun _ => 1 / 2) (fun _ => 1) [⟨0, 10, 5⟩, ⟨1, 11, 7⟩] 5).map
           (fun b => |b.Buy_Vol - b.Sell_Vol|)).drop (1 + 1 - 2)).take 2).sum /
         (5 * ((2 : Nat) : ℚ))))) := by
  have heval :
      calculate_vpin (fun _ => 1 / 2) (fun _ => 1) [⟨0, 10, 5⟩, ⟨1, 11, 7⟩] 5 2 =
        [⟨0, 0, 10, 0, 0, none⟩, ⟨7 / 2, 7 / 2, 11, 1, 0, some 0⟩] := by
    norm_num [calculate_vpin, bucketList, bucketKeys, bucketIdList, cumVolList,
      cumVolAux, sortedIds, insertIdOnce, aggBucket, buyVolAt, sellVolAt, probBuyAt,
      dPAt, dPList, vpinSigma, sampleStd, listMean, rollingVpin, List.filter,
      List.range, List.range.loop]
  exact
    ⟨vpin_trailing_window (fun _ => 1 / 2) (fun _ => 1) [⟨0, 10, 5⟩, ⟨1, 11, 7⟩] 5 2 0
        ⟨0, 0, 10, 0, 0, none⟩ (by norm_num) (by rw [heval]; rfl),
     vpin_trailing_window (fun _ => 1 / 2) (fun _ => 1) [⟨0, 10, 5⟩, ⟨1, 11, 7⟩] 5 2 1
        ⟨7 / 2, 7 / 2, 11, 1, 0, some 0⟩ (by norm_num) (by rw [heval]; rfl)⟩

/-- C9: the claim says every call with bucketVolume ≤ 0 raises
InvalidParameterError and does not proceed to compute buckets; a negative
bucket volume contradicts it — with bucket volume -5 the pandas floor division
succeeds (negative ids), the integer cast succeeds, no exception is raised,
and a three-bucket series is computed and returned. -/
theorem invalid_parameter_claim_cex :
    calculate_vpinRun (fun _ => 1 / 2) (fun _ => 0)
        [⟨0, 10, 5⟩, ⟨1, 11, 7⟩, ⟨2, 12, 9⟩] (-5) 50 =
      some (calculate_vpin (fun _ => 1 / 2) (fun _ => 0)
        [⟨0, 10, 5⟩, ⟨1, 11, 7⟩, ⟨2, 12, 9⟩] (-5) 50) ∧
    (calculate_vpinRun (fun _ => 1 / 2) (fun _ => 0)
        [⟨0, 10, 5⟩, ⟨1, 11, 7⟩, ⟨2, 12, 9⟩] (-5) 50).map List.length = some 3 := by
  have heq :
      calculate_vpinRun (fun _ => 1 / 2) (fun _ => 0)
          [⟨0, 10, 5⟩, ⟨1, 11, 7⟩, ⟨2, 12, 9⟩] (-5) 50 =
        some (calculate_vpin (fun _ => 1 / 2) (fun _ => 0)
          [⟨0, 10, 5⟩, ⟨1, 11, 7⟩, ⟨2, 12, 9⟩] (-5) 50) := by
    norm_num [calculate_vpinRun, bucketIdCast]
  refine ⟨heq, ?_⟩
  rw [heq]
  norm_num [calculate_vpin, bucketList, bucketKeys, bucketIdList, cumVolList, cumVolAux,
    sortedIds, insertIdOnce, List.range, List.range.loop]

/-- C9 (amended): `calculate_vpin` performs no explicit validation of the
bucket volume.  With bucket volume 0 on a nonempty input, the masked floor
division makes every bucket id non-finite and the `.astype(int)` of line 107
raises, so an exception escapes — a dtype-cast failure rather than a
precondition check.  With any nonzero bucket volume, negative ones included,
no exception is raised and the scored bucket series is computed and
returned. -/
theorem bucket_volume_nonpositive_no_validation (Phi sqrtFn : ℚ → ℚ) (bars : List Bar)
    (bucket_volume : ℚ) (window : Nat) (hne : bars ≠ []) :
    (bucket_volume = 0 → calculate_vpinRun Phi sqrtFn bars bucket_volume window = none) ∧
    (bucket_volume ≠ 0 → calculate_vpinRun Phi sqrtFn bars bucket_volume window =
      some (calculate_vpin Phi sqrtFn bars bucket_volume window)) := by
  constructor
  · intro h0
    subst h0
    unfold calculate_vpinRun bucketIdCast
    rw [if_pos ⟨rfl, hne⟩]
  · intro hne0
    unfold calculate_vpinRun bucketIdCast
    rw [if_neg (fun h => hne0 h.1)]

/-- C9 witness: on three concrete bars with bucket volume 0 the run aborts
with no result (the cast exception), exactly as the amended claim states. -/
theorem bucket_volume_nonpositive_no_validation_witness :
    ((0 : ℚ) = 0 → calculate_vpinRun (fun _ => 1 / 2) (fun _ => 0)
        [⟨0, 10, 5⟩, ⟨1, 11, 7⟩, ⟨2, 12, 9⟩] 0 50 = none) ∧
    ((0 : ℚ) ≠ 0 → calculate_vpinRun (fun _ => 1 / 2) (fun _ => 0)
        [⟨0, 10, 5⟩, ⟨1, 11, 7⟩, ⟨2, 12, 9⟩] 0 50 =
      some (calculate_vpin (fun _ => 1 / 2) (fun _ => 0)
        [⟨0, 10, 5⟩, ⟨1, 11, 7⟩, ⟨2, 12, 9⟩] 0 50)) :=
  bucket_volume_nonpositive_no_validation (fun _ => 1 / 2) (fun _ => 0)
    [⟨0, 10, 5⟩, ⟨1, 11, 7⟩, ⟨2, 12, 9⟩] 0 50 (by decide)

/-! ## C3, C8 -/

/-- Every element produced by insertOnce is the inserted instant or one of the
original instants. -/
theorem mem_insertOnce (t : Nat) (l : List Nat) (b : Nat) (h : b ∈ insertOnce t l) :
    b = t ∨ b ∈ l := by
  induction l with
  | nil => simpa [insertOnce] using h
  | cons u us ih =>
    unfold insertOnce at h
    by_cases h1 : t < u
    · rw [if_pos h1] at h
      rcases List.mem_cons.1 h with rfl | h2
      · exact Or.inl rfl
      · exact Or.inr h2
    · rw [if_neg h1] at h
      by_cases h2 : t = u
      · rw [if_pos h2] at h
        exact Or.inr h
      · rw [if_neg h2] at h
        rcases List.mem_cons.1 h with rfl | h3
        · exact Or.inr (List.mem_cons_self _ _)
        · rcases ih h3 with h4 | h4
          · exact Or.inl h4
          · exact Or.inr (List.mem_cons_of_mem _ h4)

/-- insertOnce preserves sortedness. -/
theorem insertOnce_sorted (t : Nat) (l : List Nat) (h : l.Sorted (· ≤ ·)) :
    (insertOnce t l).Sorted (· ≤ ·) := by
  induction l with
  | nil => simp [insertOnce]
  | cons u us ih =>
    rw [List.sorted_cons] at h
    obtain ⟨hu, hus⟩ := h
    unfold insertOnce
    by_cases h1 : t < u
    · rw [if_pos h1]
      refine List.sorted_cons.2 ⟨?_, List.sorted_cons.2 ⟨hu, hus⟩⟩
      intro b hb
      rcases List.mem_cons.1 hb with rfl | hb2
      · omega
      · exact le_trans (Nat.le_of_lt h1) (hu b hb2)
    · rw [if_neg h1]
      by_cases h2 : t = u
      · rw [if_pos h2]
        exact List.sorted_cons.2 ⟨hu, hus⟩
      · rw [if_neg h2]
        refine List.sorted_cons.2 ⟨?_, ih hus⟩
        intro b hb
        rcases mem_insertOnce t us b hb with rfl | hb2
        · omega
        · exact hu b hb2

/-- The candidate axis is sorted ascending. -/
theorem sortedUnion_sorted (l : List Nat) : (sortedUnion l).Sorted (· ≤ ·) := by
  induction l with
  | nil => simp [sortedUnion]
  | cons t ts ih => exact insertOnce_sorted t (sortedUnion ts) ih

/-- A present observation really is an observation of the series at that
instant. -/
theorem obsAt_some (s : RawSeries) (t : Nat) (v : ℚ) (h : obsAt s t = some v) :
    ∃ p ∈ s, p.1 = t ∧ p.2 = v := by
  unfold obsAt at h
  cases hf : s.find? (fun p => p.1 == t) with
  | none => rw [hf] at h; cases h
  | some a =>
    rw [hf] at h
    have ha := List.mem_of_find?_eq_some hf
    have hpa : a.1 = t := by simpa using List.find?_some hf
    exact ⟨a, ha, hpa, by simpa using h⟩

/-- A defined forward-fill cell at the head instant comes from an observation
no later than that instant. -/
theorem stepVal_started (s : RawSeries) (t0 : Nat) (axis : List Nat) (carry : Option ℚ)
    (hcarry : carryOK s carry (t0 :: axis)) (v : ℚ) (hv : stepVal s t0 carry = some v) :
    ∃ p ∈ s, p.1 ≤ t0 := by
  unfold stepVal at hv
  cases ho : obsAt s t0 with
  | some w =>
    obtain ⟨p, hp, hp1, _⟩ := obsAt_some s t0 w ho
    exact ⟨p, hp, le_of_eq hp1⟩
  | none =>
    rw [ho] at hv
    obtain ⟨p, hp, hall⟩ := hcarry v hv
    exact ⟨p, hp, hall t0 (List.mem_cons_self _ _)⟩

/-- The carry invariant is preserved by one forward-fill step along a sorted
axis. -/
theorem carryOK_step (s : RawSeries) (t0 : Nat) (axis : List Nat) (carry : Option ℚ)
    (hle : ∀ t ∈ axis, t0 ≤ t) (hcarry : carryOK s carry (t0 :: axis)) :
    carryOK s (stepVal s t0 carry) axis := by
  intro v hv
  unfold stepVal at hv
  cases ho : obsAt s t0 with
  | some w =>
    obtain ⟨p, hp, hp1, _⟩ := obsAt_some s t0 w ho
    refine ⟨p, hp, fun t ht => ?_⟩
    rw [hp1]
    exact hle t ht
  | none =>
    rw [ho] at hv
    obtain ⟨p, hp, hall⟩ := hcarry v hv
    exact ⟨p, hp, fun t ht => hall t (List.mem_cons_of_mem _ ht)⟩

/-- Every dense row of the reconciled table lies at or after the first
observation of each input series: the eight filled columns can only be
simultaneously defined once every series has started. -/
theorem denseRows_mem_started (s1 s2 s3 s4 s5 s6 s7 s8 : RawSeries) :
    ∀ (axis : List Nat) (c1 c2 c3 c4 c5 c6 c7 c8 : Option ℚ),
      axis.Sorted (· ≤ ·) →
      carryOK s1 c1 axis → carryOK s2 c2 axis → carryOK s3 c3 axis → carryOK s4 c4 axis →
      carryOK s5 c5 axis → carryOK s6 c6 axis → carryOK s7 c7 axis → carryOK s8 c8 axis →
      ∀ row ∈ denseRows axis (ffillCol s1 c1 axis) (ffillCol s2 c2 axis)
          (ffillCol s3 c3 axis) (ffillCol s4 c4 axis) (ffillCol s5 c5 axis)
          (ffillCol s6 c6 axis) (ffillCol s7 c7 axis) (ffillCol s8 c8 axis),
        (∃ p ∈ s1, p.1 ≤ row.instant) ∧ (∃ p ∈ s2, p.1 ≤ row.instant) ∧
        (∃ p ∈ s3, p.1 ≤ row.instant) ∧ (∃ p ∈ s4, p.1 ≤ row.instant) ∧
        (∃ p ∈ s5, p.1 ≤ row.instant) ∧ (∃ p ∈ s6, p.1 ≤ row.instant) ∧
        (∃ p ∈ s7, p.1 ≤ row.instant) ∧ (∃ p ∈ s8, p.1 ≤ row.instant) := by
  intro axis
  induction axis with
  | nil =>
    intro c1 c2 c3 c4 c5 c6 c7 c8 _ _ _ _ _ _ _ _ _ row hrow
    simp [ffillCol, denseRows] at hrow
  | cons t0 ts ih =>
    intro c1 c2 c3 c4 c5 c6 c7 c8 hsort h1 h2 h3 h4 h5 h6 h7 h8 row hrow
    rw [List.sorted_cons] at hsort
    obtain ⟨hle, hsort2⟩ := hsort
    simp only [ffillCol, denseRows] at hrow
    split at hrow
    case _ v1 v2 v3 v4 v5 v6 v7 v8 heq1 heq2 heq3 heq4 heq5 heq6 heq7 heq8 =>
      rcases List.mem_cons.1 hrow with rfl | hrow2
      · exact ⟨stepVal_started s1 t0 ts c1 h1 v1 heq1, stepVal_started s2 t0 ts c2 h2 v2 heq2,
          stepVal_started s3 t0 ts c3 h3 v3 heq3, stepVal_started s4 t0 ts c4 h4 v4 heq4,
          stepVal_started s5 t0 ts c5 h5 v5 heq5, stepVal_started s6 t0 ts c6 h6 v6 heq6,
          stepVal_started s7 t0 ts c7 h7 v7 heq7, stepVal_started s8 t0 ts c8 h8 v8 heq8⟩
      · exact ih (stepVal s1 t0 c1) (stepVal s2 t0 c2) (stepVal s3 t0 c3) (stepVal s4 t0 c4)
          (stepVal s5 t0 c5) (stepVal s6 t0 c6) (stepVal s7 t0 c7) (stepVal s8 t0 c8)
          hsort2 (carryOK_step s1 t0 ts c1 hle h1) (carryOK_step s2 t0 ts c2 hle h2)
          (carryOK_step s3 t0 ts c3 hle h3) (carryOK_step s4 t0 ts c4 hle h4)
          (carryOK_step s5 t0 ts c5 hle h5) (carryOK_step s6 t0 ts c6 hle h6)
          (carryOK_step s7 t0 ts c7 hle h7) (carryOK_step s8 t0 ts c8 hle h8) row hrow2
    case _ =>
      exact ih (stepVal s1 t0 c1) (stepVal s2 t0 c2) (stepVal s3 t0 c3) (stepVal s4 t0 c4)
        (stepVal s5 t0 c5) (stepVal s6 t0 c6) (stepVal s7 t0 c7) (stepVal s8 t0 c8)
        hsort2 (carryOK_step s1 t0 ts c1 hle h1) (carryOK_step s2 t0 ts c2 hle h2)
        (carryOK_step s3 t0 ts c3 hle h3) (carryOK_step s4 t0 ts c4 hle h4)
        (carryOK_step s5 t0 ts c5 hle h5) (carryOK_step s6 t0 ts c6 hle h6)
        (carryOK_step s7 t0 ts c7 hle h7) (carryOK_step s8 t0 ts c8 hle h8) row hrow

/-- C3: the claim says a series listed in zeroFillBefore whose first
observation is at t5 keeps the earlier instants t1..t4 in the panel with value
0; the reconciler has no zero-fill policy at all — with seven series observed
at instants 1..5 and the eighth series first observed at instant 5, the rows
at instants 1..4 are dropped and only the instant-5 row survives, the
pre-inception cells never becoming 0. -/
theorem zero_fill_claim_cex :
    getMacroData [(1, 1), (2, 1), (3, 1), (4, 1), (5, 1)] [(1, 1), (2, 1), (3, 1), (4, 1), (5, 1)]
      [(1, 1), (2, 1), (3, 1), (4, 1), (5, 1)] [(1, 1), (2, 1), (3, 1), (4, 1), (5, 1)]
      [(1, 1), (2, 1), (3, 1), (4, 1), (5, 1)] [(1, 1), (2, 1), (3, 1), (4, 1), (5, 1)]
      [(1, 1), (2, 1), (3, 1), (4, 1), (5, 1)] [(5, 2)] =
      [{ instant := 5, Fed_Assets := 1, TGA := 1, RRP := 1, Yield_Curve := 1,
         CCC := 1, BB := 1, T3M := 1, RRP_Rate := 2 }] ∧
    (getMacroData [(1, 1), (2, 1), (3, 1), (4, 1), (5, 1)] [(1, 1), (2, 1), (3, 1), (4, 1), (5, 1)]
      [(1, 1), (2, 1), (3, 1), (4, 1), (5, 1)] [(1, 1), (2, 1), (3, 1), (4, 1), (5, 1)]
      [(1, 1), (2, 1), (3, 1), (4, 1), (5, 1)] [(1, 1), (2, 1), (3, 1), (4, 1), (5, 1)]
      [(1, 1), (2, 1), (3, 1), (4, 1), (5, 1)] [(5, 2)]).map MacroRow.instant = [5] := by
  constructor
  · decide
  · decide

/-- C3 (amended): the reconciler zero-fills nothing; a value still missing
after forward-fill (in particular, before a series' first observation) causes
the whole row to be dropped, so every retained row lies at or after the first
observation of every input series. -/
theorem reconcile_drops_pre_inception (s1 s2 s3 s4 s5 s6 s7 s8 : RawSeries)
    (row : MacroRow) (hrow : row ∈ getMacroData s1 s2 s3 s4 s5 s6 s7 s8) :
    (∃ p ∈ s1, p.1 ≤ row.instant) ∧ (∃ p ∈ s2, p.1 ≤ row.instant) ∧
    (∃ p ∈ s3, p.1 ≤ row.instant) ∧ (∃ p ∈ s4, p.1 ≤ row.instant) ∧
    (∃ p ∈ s5, p.1 ≤ row.instant) ∧ (∃ p ∈ s6, p.1 ≤ row.instant) ∧
    (∃ p ∈ s7, p.1 ≤ row.instant) ∧ (∃ p ∈ s8, p.1 ≤ row.instant) := by
  have hsorted : (unionInstants s1 s2 s3 s4 s5 s6 s7 s8).Sorted (· ≤ ·) := by
    unfold unionInstants
    exact sortedUnion_sorted _
  have hnone : ∀ s : RawSeries, carryOK s none (unionInstants s1 s2 s3 s4 s5 s6 s7 s8) :=
    fun s v hv => nomatch hv
  exact denseRows_mem_started s1 s2 s3 s4 s5 s6 s7 s8
    (unionInstants s1 s2 s3 s4 s5 s6 s7 s8) none none none none none none none none
    hsorted (hnone s1) (hnone s2) (hnone s3) (hnone s4) (hnone s5) (hnone s6) (hnone s7)
    (hnone s8) row hrow

/-- C3 witness: eight singleton series observed at instant 1 produce one row,
and each series indeed has an observation no later than that row's instant. -/
theorem reconcile_drops_pre_inception_witness :
    (∃ p ∈ ([(1, 1)] : RawSeries), p.1 ≤ (⟨1, 1, 1, 1, 1, 1, 1, 1, 1⟩ : MacroRow).instant) ∧
    (∃ p ∈ ([(1, 1)] : RawSeries), p.1 ≤ (⟨1, 1, 1, 1, 1, 1, 1, 1, 1⟩ : MacroRow).instant) ∧
    (∃ p ∈ ([(1, 1)] : RawSeries), p.1 ≤ (⟨1, 1, 1, 1, 1, 1, 1, 1, 1⟩ : MacroRow).instant) ∧
    (∃ p ∈ ([(1, 1)] : RawSeries), p.1 ≤ (⟨1, 1, 1, 1, 1, 1, 1, 1, 1⟩ : MacroRow).instant) ∧
    (∃ p ∈ ([(1, 1)] : RawSeries), p.1 ≤ (⟨1, 1, 1, 1, 1, 1, 1, 1, 1⟩ : MacroRow).instant) ∧
    (∃ p ∈ ([(1, 1)] : RawSeries), p.1 ≤ (⟨1, 1, 1, 1, 1, 1, 1, 1, 1⟩ : MacroRow).instant) ∧
    (∃ p ∈ ([(1, 1)] : RawSeries), p.1 ≤ (⟨1, 1, 1, 1, 1, 1, 1, 1, 1⟩ : MacroRow).instant) ∧
    (∃ p ∈ ([(1, 1)] : RawSeries), p.1 ≤ (⟨1, 1, 1, 1, 1, 1, 1, 1, 1⟩ : MacroRow).instant) :=
  reconcile_drops_pre_inception [(1, 1)] [(1, 1)] [(1, 1)] [(1, 1)] [(1, 1)] [(1, 1)]
    [(1, 1)] [(1, 1)] ⟨1, 1, 1, 1, 1, 1, 1, 1, 1⟩ (by decide)

/-- C8: the claim says a reconciliation leaving fewer than 2 dense rows raises
InsufficientDataError naming the empty series; the code returns whatever rows
remain as an ordinary panel — eight singleton series produce a one-row panel,
no error. -/
theorem insufficient_data_claim_cex :
    getMacroData [(1, 1)] [(1, 2)] [(1, 3)] [(1, 4)] [(1, 5)] [(1, 6)] [(1, 7)] [(1, 8)] =
      [{ instant := 1, Fed_Assets := 1, TGA := 2, RRP := 3, Yield_Curve := 4, CCC := 5,
         BB := 6, T3M := 7, RRP_Rate := 8 }] ∧
    (getMacroData [(1, 1)] [(1, 2)] [(1, 3)] [(1, 4)] [(1, 5)] [(1, 6)] [(1, 7)]
      [(1, 8)]).length = 1 := by
  constructor
  · decide
  · decide

/-- C8 (amended): reconciliation never signals an error; in particular, when
the union of instants is empty it returns the empty panel (and, per the
counterexample, a single dense row is likewise returned as a panel). -/
theorem reconcile_no_error_on_empty (s1 s2 s3 s4 s5 s6 s7 s8 : RawSeries)
    (h : unionInstants s1 s2 s3 s4 s5 s6 s7 s8 = []) :
    getMacroData s1 s2 s3 s4 s5 s6 s7 s8 = [] := by
  simp only [getMacroData]
  rw [h]
  rfl

/-- C8 witness: eight empty series have an empty instant union and reconcile
to the empty panel without error. -/
theorem reconcile_no_error_on_empty_witness :
    unionInstants [] [] [] [] [] [] [] [] = [] ∧
    getMacroData [] [] [] [] [] [] [] [] = [] :=
  ⟨rfl, reconcile_no_error_on_empty [] [] [] [] [] [] [] [] rfl⟩
